import Mathlib

/-!
Verification development for the mqttletoad client core
(`lib/index.js`, `lib/encoders.js`, `lib/decoders.js`).

The client monkeypatches an MQTT client: `subscribe`/`unsubscribe`/`publish`/
`end` are replaced with promisified versions that keep a local listener
registry in an EventEmitter2 instance (`client.toad`, wildcard mode with
delimiter `/`).  MQTT wildcards are translated to EventEmitter2 wildcards by
`eventify` (`#` to `**`, `+` to `*`).  Inbound messages are re-emitted on the
internal emitter, which routes them to the registered listeners.

JavaScript values that matter here are embedded shallowly:
listener functions are identified by opaque tokens (distinct closures get
distinct tokens, mirroring JS object identity), option objects become an
`Opts` structure, and the network is represented by the list of frames an
operation hands to the underlying transport.
-/

namespace Mqttletoad

/-! ## Topic segmentation and `eventify` (from `lib/index.js`) -/

/-- Splitting a string on the `/` delimiter, with JavaScript
`String.prototype.split` semantics: `"" ↦ [""]`, `"a//b" ↦ ["a","","b"]`. -/
def splitSegsAux (acc : List Char) : List Char → List String
  | [] => [String.mk acc.reverse]
  | c :: cs =>
    if c = '/' then String.mk acc.reverse :: splitSegsAux [] cs
    else splitSegsAux (c :: acc) cs

/-- Segments of a topic or filter string. -/
def splitSegs (s : String) : List String := splitSegsAux [] s.data

/-- First pass of `eventify`: `topic.replace(/#/g, '**')`. -/
def repHashChar (c : Char) : List Char := if c = '#' then ['*', '*'] else [c]

/-- Second pass of `eventify`: `.replace(/\+/g, '*')`. -/
def repPlusChar (c : Char) : List Char := if c = '+' then ['*'] else [c]

/-- `eventify` from `lib/index.js`:
`topic => topic.replace(/#/g, '**').replace(/\+/g, '*')`. -/
def eventify (s : String) : String :=
  String.mk (((s.data.map repHashChar).flatten.map repPlusChar).flatten)

/-! ## Topic filter matching

Modelled from the spec: the matching of a topic filter against a literal
topic is performed by the external EventEmitter2 dependency (not part of this
repository), so the walk below follows the specified semantics: a literal
filter segment must equal the topic segment, `+` matches exactly one segment,
and a trailing `#` matches all remaining segments including zero of them;
matching fails when one side is exhausted and the other is not, except for
the trailing `#` case. -/

/-- Modelled from the spec: segment-by-segment filter matching walk
(the concrete matcher lives in the eventemitter2 dependency). -/
def mqttMatch : List String → List String → Bool
  | [], ts => ts.isEmpty
  | f :: fs, ts =>
    if f = "#" ∧ fs = [] then true
    else
      match ts with
      | [] => false
      | t :: ts₂ => ((f == "+") || (f == t)) && mqttMatch fs ts₂

/-- `matches(filter, topic)` on whole strings. -/
def mqttMatches (f t : String) : Bool := mqttMatch (splitSegs f) (splitSegs t)

/-- One segment of the claim's declarative matching condition: a `+` filter
segment consumes any one topic segment, a literal one must be equal. -/
def segMatch (f t : String) : Prop := f = "+" ∨ f = t

/-- The claim's declarative description of matching: either the filter has no
trailing `#` and its segments pair up one-to-one with the topic's, or it is
`gs ++ ["#"]` and `gs` pairs up with a prefix of the topic segments, the
trailing `#` consuming the (possibly empty) remainder. -/
def SpecMatch (fs ts : List String) : Prop :=
  (fs.getLast? ≠ some "#" ∧ List.Forall₂ segMatch fs ts)
  ∨ (∃ gs ts₁ ts₂, fs = gs ++ ["#"] ∧ ts = ts₁ ++ ts₂ ∧ List.Forall₂ segMatch gs ts₁)

/-! ## EventEmitter2-level matching and specificity (dispatch path)

Modelled from the spec: the registry keys are the eventified filters
(`+ ↦ *`, `# ↦ **`), and dispatch order is by descending specificity:
exact filters first, then filters containing `+` (i.e. a `*` segment), then
filters ending in `#` (i.e. a trailing `**` segment); ties in registration
order. -/

/-- Modelled from the spec: EventEmitter2 wildcard matching of a registered
event pattern against an emitted event, `*` matching exactly one segment and
a trailing `**` matching any remainder. -/
def ee2Match : List String → List String → Bool
  | [], ts => ts.isEmpty
  | p :: ps, ts =>
    if p = "**" ∧ ps = [] then true
    else
      match ts with
      | [] => false
      | t :: ts₂ => ((p == "*") || (p == t)) && ee2Match ps ts₂

/-- Modelled from the spec: specificity class of a registered (eventified)
filter; `0` = exact literal, `1` = contains a single-level wildcard,
`2` = ends in the multi-level wildcard. Lower is more specific. -/
def classOfEvent (e : String) : Nat :=
  let segs := splitSegs e
  if segs.getLast? = some "**" then 2
  else if segs.contains "*" then 1
  else 0

/-! ## Options and codec configuration (from `lib/index.js` `normalizeOptions`) -/

/-- The four built-in codec names shared by `lib/encoders.js` and
`lib/decoders.js`. -/
inductive Builtin
  | bJson | bText | bBase64 | bBinary
deriving DecidableEq, Repr

/-- A JavaScript function value usable as an encoder/decoder: one of the
built-ins, a method inherited from `Object.prototype` (reached when a codec
is named by a string such as `"toString"`), or an arbitrary caller-supplied
transform (opaque token). -/
inductive CodecFn
  | builtin (b : Builtin)
  | protoMethod (name : String)
  | custom (id : Nat)
deriving DecidableEq, Repr

/-- The value of a `decoder`/`encoder` option: a string name, a function, or
some other (non-string, non-function) JavaScript value such as a `Date`. -/
inductive OptVal
  | str (s : String)
  | fnVal (f : CodecFn)
  | otherVal
deriving DecidableEq, Repr

/-- Errors thrown by the patched client: `TypeError`, `ReferenceError`
(both with their message), and a broker-side rejection propagated from the
underlying client. -/
inductive JSErr
  | typeErr (msg : String)
  | refErr (msg : String)
  | brokerErr
deriving DecidableEq, Repr

/-- An options object.  `decoder`/`encoder` are the codec options;
`qos` and `extra` stand for the other enumerable keys that
`Object.assign` merges (e.g. `qos`, connection-level options). -/
structure Opts where
  decoder : Option OptVal := none
  encoder : Option OptVal := none
  qos : Option Nat := none
  extra : Option Nat := none
deriving DecidableEq, Repr

/-- The own property names of `Object.prototype` whose values are functions;
a CommonJS module's `exports` is a plain object, so a bracket lookup on the
codec tables finds these through the prototype chain. -/
def objectProtoMembers : List String :=
  ["constructor", "hasOwnProperty", "isPrototypeOf", "propertyIsEnumerable",
   "toLocaleString", "toString", "valueOf", "__defineGetter__",
   "__defineSetter__", "__lookupGetter__", "__lookupSetter__"]

/-- The JavaScript bracket lookup `builtins[name]` on the codec module
exports (`decoders`/`encoders` export the same four names): the four own
keys yield the codec functions, and the lookup also traverses the prototype
chain, so the `Object.prototype` methods are found (function values) as is
the `__proto__` accessor (which yields the prototype object itself, a
non-function).  All of these are truthy, so only a name matching no own or
inherited property yields `undefined` (and hence the `ReferenceError` in
`normalizeOptions`). -/
def lookupBuiltin (s : String) : Option OptVal :=
  match s with
  | "json" => some (.fnVal (.builtin .bJson))
  | "text" => some (.fnVal (.builtin .bText))
  | "base64" => some (.fnVal (.builtin .bBase64))
  | "binary" => some (.fnVal (.builtin .bBinary))
  | _ =>
    if s = "__proto__" then some .otherVal
    else if objectProtoMembers.contains s then some (.fnVal (.protoMethod s))
    else none

/-- One iteration of the `forEach` in `normalizeOptions`: if the option is
present and a string, replace it by whatever the bracket lookup finds (own
built-in or inherited), a `ReferenceError` when the lookup yields a falsy
`undefined`; if present and not a string and not a function, a
`TypeError`. -/
def resolveProp (prop : String) : Option OptVal → Except JSErr (Option OptVal)
  | none => .ok none
  | some (.str s) =>
    match lookupBuiltin s with
    | some v => .ok (some v)
    | none => .error (.refErr ("unknown " ++ prop ++ " \"" ++ s ++ "\""))
  | some (.fnVal f) => .ok (some (.fnVal f))
  | some .otherVal => .error (.typeErr (prop ++ " must be string or function"))

/-- `Object.assign(opts, defaults, opts)`: sources are copied onto `opts`
left to right, so `defaults` first overwrites every key it carries; the
trailing `opts` source is by then the already-mutated object itself, so the
final copy is an identity no-op.  Net effect: on keys present in both
objects the `defaults` value wins, and only keys absent from `defaults`
keep the `opts` value. -/
def mergeOpts (o d : Opts) : Opts :=
  { decoder := d.decoder <|> o.decoder
    encoder := d.encoder <|> o.encoder
    qos := d.qos <|> o.qos
    extra := d.extra <|> o.extra }

/-- `normalizeOptions(opts, defaults)` from `lib/index.js`: resolve the
`decoder` option, then the `encoder` option, then merge the defaults. -/
def normalizeOptions (o d : Opts) : Except JSErr Opts :=
  match resolveProp "decoder" o.decoder with
  | .error e => .error e
  | .ok dec =>
    match resolveProp "encoder" o.encoder with
    | .error e => .error e
    | .ok enc => .ok (mergeOpts { o with decoder := dec, encoder := enc } d)

/-- The decoder/encoder option is valid: absent, a function, or the name of a
built-in codec. -/
def okOptVal : Option OptVal → Prop
  | none => True
  | some (.str s) => ∃ b, lookupBuiltin s = some b
  | some (.fnVal _) => True
  | some .otherVal => False

/-- The option is a string naming no built-in codec. -/
def badNameOpt (v : Option OptVal) : Prop :=
  ∃ s, v = some (.str s) ∧ lookupBuiltin s = none

/-- The option is neither a string nor a function. -/
def badTypeOpt (v : Option OptVal) : Prop := v = some .otherVal

/-! ## The patched client (from `lib/index.js` `toadpatch`) -/

/-- A JavaScript function value held in the internal emitter's listener
list.  `toadSubscribe` registers the anonymous wrapper
`(message, packet) => listener(decoder(message), packet)` — a function
object distinct from the caller's `listener` — so wrappers carry a fresh
token; `raw l` is the caller's listener function itself. -/
inductive FnVal
  | raw (l : Nat)
  | wrapped (tok : Nat) (l : Nat) (dec : Option OptVal)
deriving DecidableEq, Repr

/-- The listener a registered function forwards to. -/
def fnListener : FnVal → Nat
  | .raw l => l
  | .wrapped _ l _ => l

/-- Registration token (used to express registration order). -/
def fnTok : FnVal → Nat
  | .raw l => l
  | .wrapped t _ _ => t

/-- State of a patched client: the internal EventEmitter2 listener registry
(pairs of eventified topic and registered function, in registration order),
a counter for fresh function identities, and the connection flags. -/
structure ClientState where
  toad : List (String × FnVal) := []
  nextTok : Nat := 0
  connected : Bool := true
  disconnecting : Bool := false
deriving DecidableEq, Repr

/-- Number of listeners registered for an event
(`EventEmitter2#listenerCount`). -/
def listenerCountL (l : List (String × FnVal)) (e : String) : Nat :=
  (l.filter (fun x => x.1 == e)).length

/-- `EventEmitter2#removeAllListeners(event)`. -/
def removeAllL (l : List (String × FnVal)) (e : String) : List (String × FnVal) :=
  l.filter (fun x => x.1 != e)

/-- `EventEmitter2#removeListener(event, fn)`: remove at most one handler
registered under `event` that is the very function object `fn` (the emitter
scans the handler list from the most recently added). -/
def removeListenerL (l : List (String × FnVal)) (e : String) (fn : FnVal) :
    List (String × FnVal) :=
  (List.eraseP (fun x => x.1 == e && x.2 == fn) l.reverse).reverse

/-- A JavaScript argument as seen by the `typeof` checks in `toadSubscribe`:
a string, a function (opaque token), `undefined`, or some other object. -/
inductive JSVal
  | str (s : String)
  | fn (l : Nat)
  | undef
  | obj
deriving DecidableEq, Repr

/-- `typeof v === 'string'`. -/
def JSVal.isStr : JSVal → Bool
  | .str _ => true
  | _ => false

/-- `typeof v === 'function'`. -/
def JSVal.isFn : JSVal → Bool
  | .fn _ => true
  | _ => false

/-- The `{topic, qos}` object a successful broker subscribe resolves with. -/
structure Grant where
  topic : String
  qos : Nat
deriving DecidableEq, Repr

/-- A frame handed to the underlying MQTT client (the network effect of an
operation).  The publish frame records the message together with the options
object whose `encoder` field is the transform applied to it. -/
inductive Frame
  | sub (topic : String) (o : Opts)
  | unsub (topic : String)
  | pub (topic : String) (msg : Nat) (o : Opts)
  | disconnect (force : Bool)
deriving DecidableEq, Repr

/-- `toadSubscribe` from `lib/index.js`.  Arguments: the connection-level
defaults `base` (`baseOpts`), the client state, the raw `topic` and
`listener` arguments, the options object, and the broker's response to the
subscribe frame.  Returns the operation result, the new state, and the
frames sent.  Steps, in source order: the `typeof` validation, option
normalization, registration of the decoder wrapper on the internal emitter,
the broker subscribe, and on broker failure the attempted rollback
`toad.removeListener(event, listener)` (note: with the caller's `listener`,
not the wrapper that was registered). -/
def toadSubscribe (base : Opts) (st : ClientState) (topic listener : JSVal)
    (opts : Opts) (broker : Except Unit Grant) :
    Except JSErr Grant × ClientState × List Frame :=
  match topic, listener with
  | .str t, .fn l =>
    match normalizeOptions opts base with
    | .error e => (.error e, st, [])
    | .ok o =>
      let event := eventify t
      let st₁ : ClientState :=
        { st with
          toad := st.toad ++ [(event, .wrapped st.nextTok l o.decoder)]
          nextTok := st.nextTok + 1 }
      match broker with
      | .ok g => (.ok g, st₁, [.sub t o])
      | .error _ =>
        (.error .brokerErr,
         { st₁ with toad := removeListenerL st₁.toad event (.raw l) },
         [.sub t o])
  | _, _ => (.error (.typeErr "Invalid parameters"), st, [])

/-- `toadUnsubscribe` from `lib/index.js`: remove the given listener (or all
listeners when omitted) from the internal emitter; if no listener remains
for the event, send a broker unsubscribe and resolve `true`, else resolve
`false`.  The broker unsubscribe is assumed acknowledged. -/
def toadUnsubscribe (st : ClientState) (topic : String) (listener : Option Nat) :
    Bool × ClientState × List Frame :=
  let event := eventify topic
  let toad₂ :=
    match listener with
    | none => removeAllL st.toad event
    | some l => removeListenerL st.toad event (.raw l)
  let st₂ := { st with toad := toad₂ }
  if listenerCountL toad₂ event = 0 then (true, st₂, [.unsub topic])
  else (false, st₂, [])

/-- `toadEnd` from `lib/index.js`: a no-op unless connected; otherwise the
transport disconnect is requested (its completion clears `connected` in the
underlying client, whose `end` callback carries no error) and
`disconnecting` is reset. -/
def toadEnd (st : ClientState) (force : Bool) : ClientState × List Frame :=
  if st.connected then
    ({ st with connected := false, disconnecting := false }, [.disconnect force])
  else (st, [])

/-- `publish` from `lib/index.js`: normalize the options (resolving the
encoder), then hand the frame to the underlying client.  The application of
the resolved encoder to the message is recorded in the frame. -/
def publishModel (base : Opts) (topic : String) (msg : Nat) (opts : Opts) :
    Except JSErr Unit × List Frame :=
  match normalizeOptions opts base with
  | .error e => (.error e, [])
  | .ok o => (.ok (), [.pub topic msg o])

/-- Modelled from the spec: whether a registered event pattern receives a
message published on `topic` (the `message` handler emits
`eventify(topic)` on the internal emitter). -/
def eventMatchesTopic (e topic : String) : Bool :=
  ee2Match (splitSegs e) (splitSegs (eventify topic))

/-- Modelled from the spec: the registry entries a message on `topic` is
dispatched to, in descending specificity order, ties in registration
order. -/
def dispatchEntries (st : ClientState) (topic : String) : List (String × FnVal) :=
  ((st.toad.filter (fun x => eventMatchesTopic x.1 topic)).filter
      (fun x => classOfEvent x.1 == 0))
    ++ ((st.toad.filter (fun x => eventMatchesTopic x.1 topic)).filter
      (fun x => classOfEvent x.1 == 1))
    ++ ((st.toad.filter (fun x => eventMatchesTopic x.1 topic)).filter
      (fun x => classOfEvent x.1 == 2))

/-- The listeners invoked for a message on `topic`, in invocation order. -/
def dispatchMessage (st : ClientState) (topic : String) : List Nat :=
  (dispatchEntries st topic).map (fun x => fnListener x.2)

/-! ## Store-passing variants (object identity of the options argument)

`normalizeOptions` mutates the caller's options object (`opts[prop] = value`
and `Object.assign(opts, ...)` operate on the object itself).  To state
this, the same code is embedded once more with the options object held in an
explicit store of object references. -/

/-- A heap of options objects, addressed by reference. -/
def OptStore : Type := Nat → Opts

/-- Write the object at reference `r`. -/
def setRef (σ : OptStore) (r : Nat) (o : Opts) : OptStore :=
  fun x => if x = r then o else σ x

/-- `normalizeOptions` acting on the object at reference `r`: each resolved
codec option is assigned back into the object, then the defaults are merged
into it; the partially updated store is returned alongside any error. -/
def normalizeRef (σ : OptStore) (r : Nat) (d : Opts) : Option JSErr × OptStore :=
  match resolveProp "decoder" (σ r).decoder with
  | .error e => (some e, σ)
  | .ok dec =>
    let σ₁ := setRef σ r { σ r with decoder := dec }
    match resolveProp "encoder" (σ₁ r).encoder with
    | .error e => (some e, σ₁)
    | .ok enc =>
      let σ₂ := setRef σ₁ r { σ₁ r with encoder := enc }
      (none, setRef σ₂ r (mergeOpts (σ₂ r) d))

/-- `publish` with the options object passed by reference. -/
def publishRef (σ : OptStore) (r : Nat) (base : Opts) (topic : String)
    (msg : Nat) : Except JSErr Unit × OptStore × List Frame :=
  match normalizeRef σ r base with
  | (some e, σ₂) => (.error e, σ₂, [])
  | (none, σ₂) => (.ok (), σ₂, [.pub topic msg (σ₂ r)])

/-- `toadSubscribe` with the options object passed by reference. -/
def subscribeRef (base : Opts) (st : ClientState) (σ : OptStore) (r : Nat)
    (topic listener : JSVal) (broker : Except Unit Grant) :
    Except JSErr Grant × OptStore × ClientState × List Frame :=
  match topic, listener with
  | .str t, .fn l =>
    match normalizeRef σ r base with
    | (some e, σ₂) => (.error e, σ₂, st, [])
    | (none, σ₂) =>
      let o := σ₂ r
      let event := eventify t
      let st₁ : ClientState :=
        { st with
          toad := st.toad ++ [(event, .wrapped st.nextTok l o.decoder)]
          nextTok := st.nextTok + 1 }
      match broker with
      | .ok g => (.ok g, σ₂, st₁, [.sub t o])
      | .error _ =>
        (.error .brokerErr, σ₂,
         { st₁ with toad := removeListenerL st₁.toad event (.raw l) },
         [.sub t o])
  | _, _ => (.error (.typeErr "Invalid parameters"), σ, st, [])

/-! ## Built-in codecs (from `lib/encoders.js` and `lib/decoders.js`) -/

/-- Modelled from the spec: UTF-8 encoding of one character (the host's
string-to-bytes conversion used when a string payload goes on the wire). -/
def utf8EncodeChar (c : Char) : List Nat :=
  let n := c.toNat
  if n < 128 then [n]
  else if n < 2048 then [192 + n / 64, 128 + n % 64]
  else if n < 65536 then [224 + n / 4096, 128 + n / 64 % 64, 128 + n % 64]
  else [240 + n / 262144, 128 + n / 4096 % 64, 128 + n / 64 % 64, 128 + n % 64]

/-- UTF-8 encoding of a string as a byte list. -/
def utf8Encode (s : String) : List Nat := (s.data.map utf8EncodeChar).flatten

/-- Modelled from the spec: UTF-8 decoding (`buffer.toString('utf-8')`);
ill-formed tails decode to the replacement character. -/
def utf8DecodeAux : List Nat → List Char
  | [] => []
  | [b₁] => if b₁ < 128 then [Char.ofNat b₁] else ['�']
  | b₁ :: b₂ :: rest =>
    if b₁ < 128 then Char.ofNat b₁ :: utf8DecodeAux (b₂ :: rest)
    else if b₁ < 224 then Char.ofNat ((b₁ - 192) * 64 + (b₂ - 128)) :: utf8DecodeAux rest
    else
      match rest with
      | [] => ['�']
      | b₃ :: rest₂ =>
        if b₁ < 240 then
          Char.ofNat ((b₁ - 224) * 4096 + (b₂ - 128) * 64 + (b₃ - 128)) :: utf8DecodeAux rest₂
        else
          match rest₂ with
          | [] => ['�']
          | b₄ :: rest₃ =>
            Char.ofNat ((b₁ - 240) * 262144 + (b₂ - 128) * 4096
              + (b₃ - 128) * 64 + (b₄ - 128)) :: utf8DecodeAux rest₃

/-- `buffer.toString('utf-8')` on a byte list. -/
def utf8Decode (l : List Nat) : String := String.mk (utf8DecodeAux l)

/-- `encoders.text = String`: on a string argument, the identity. -/
def textEncode (s : String) : String := s

/-- `decoders.text`: interpret the payload bytes as a UTF-8 string. -/
def textDecode (l : List Nat) : String := utf8Decode l

/-- `encoders.binary = value => Buffer.from(value)`: on a buffer argument a
copy with the same contents. -/
def binaryEncode (l : List Nat) : List Nat := l

/-- `decoders.binary`: the unmodified payload. -/
def binaryDecode (l : List Nat) : List Nat := l

/-! ### JSON (modelled from the spec: the host's `JSON.stringify`/`JSON.parse`,
on the subset of structured values needed here: null, booleans, integers,
escape-free strings, and objects). -/

/-- A structured (JSON) value. -/
inductive JVal
  | jnull
  | jbool (b : Bool)
  | jnum (n : Int)
  | jstr (s : String)
  | jobj (ms : List (String × JVal))
deriving Repr

/-- Comma-separated concatenation. -/
def joinComma : List String → String
  | [] => ""
  | [s] => s
  | s :: rest => s ++ "," ++ joinComma rest

/-- Modelled from the spec: `JSON.stringify` (compact form), with fuel to
make the nested recursion structural. -/
def jsonStringifyF : Nat → JVal → String
  | 0, _ => ""
  | fuel + 1, v =>
    match v with
    | .jnull => "null"
    | .jbool true => "true"
    | .jbool false => "false"
    | .jnum n => toString n
    | .jstr s => "\"" ++ s ++ "\""
    | .jobj ms =>
      "\x7b"
        ++ joinComma (ms.map (fun p => "\"" ++ p.1 ++ "\":" ++ jsonStringifyF fuel p.2))
        ++ "\x7d"

/-- `JSON.stringify` with enough fuel for the values considered here. -/
def jsonStringify (v : JVal) : String := jsonStringifyF 64 v

/-- Decimal digit test on a character. -/
def isDigitC (c : Char) : Bool := 48 ≤ c.toNat && c.toNat ≤ 57

/-- Consume decimal digits, accumulating their value. -/
def parseDigits : List Char → Nat → Nat × List Char
  | [], acc => (acc, [])
  | c :: cs, acc =>
    if isDigitC c then parseDigits cs (acc * 10 + (c.toNat - 48))
    else (acc, c :: cs)

/-- Consume an escape-free string literal body up to the closing quote. -/
def parseStrAux (acc : List Char) : List Char → Option (String × List Char)
  | [] => none
  | c :: cs =>
    if c = '"' then some (String.mk acc.reverse, cs)
    else parseStrAux (c :: acc) cs

/-- Modelled from the spec: `JSON.parse`, as a fuel-indexed step function.
With the tag `false` it parses one value, with `true` a non-empty object
member list `"key":value(,...)}`.  Object braces are recognized by their
character codes 123 and 125. -/
def jsonParseStep : Nat → Bool → List Char → Option ((JVal ⊕ List (String × JVal)) × List Char)
  | 0, _, _ => none
  | Nat.succ fuel, false, cs =>
    match cs with
    | 'n' :: 'u' :: 'l' :: 'l' :: r => some (Sum.inl JVal.jnull, r)
    | 't' :: 'r' :: 'u' :: 'e' :: r => some (Sum.inl (JVal.jbool true), r)
    | 'f' :: 'a' :: 'l' :: 's' :: 'e' :: r => some (Sum.inl (JVal.jbool false), r)
    | '"' :: r =>
      match parseStrAux [] r with
      | some (s, r₂) => some (Sum.inl (JVal.jstr s), r₂)
      | none => none
    | '-' :: c :: r =>
      if isDigitC c then
        match parseDigits (c :: r) 0 with
        | (n, r₂) => some (Sum.inl (JVal.jnum (-(n : Int))), r₂)
      else none
    | c :: r =>
      if isDigitC c then
        match parseDigits (c :: r) 0 with
        | (n, r₂) => some (Sum.inl (JVal.jnum (n : Int)), r₂)
      else if c.toNat = 123 then
        match r with
        | [] => none
        | c₂ :: r₂ =>
          if c₂.toNat = 125 then some (Sum.inl (JVal.jobj []), r₂)
          else
            match jsonParseStep fuel true (c₂ :: r₂) with
            | some (Sum.inr ms, r₃) => some (Sum.inl (JVal.jobj ms), r₃)
            | _ => none
      else none
    | [] => none
  | Nat.succ fuel, true, cs =>
    match cs with
    | '"' :: r =>
      match parseStrAux [] r with
      | some (k, r₂) =>
        match r₂ with
        | ':' :: r₃ =>
          match jsonParseStep fuel false r₃ with
          | some (Sum.inl v, r₄) =>
            match r₄ with
            | [] => none
            | c₄ :: r₅ =>
              if c₄ = ',' then
                match jsonParseStep fuel true r₅ with
                | some (Sum.inr ms, r₆) => some (Sum.inr ((k, v) :: ms), r₆)
                | _ => none
              else if c₄.toNat = 125 then some (Sum.inr [(k, v)], r₅)
              else none
          | _ => none
        | _ => none
      | none => none
    | _ => none

/-- `JSON.parse`: a parse succeeds when one value consumes the whole input. -/
def jsonParse (s : String) : Option JVal :=
  match jsonParseStep 64 false s.data with
  | some (Sum.inl v, []) => some v
  | _ => none

/-- The representative structured value of the round-trip property. -/
def jsonRep : JVal := .jobj [("a", .jnum 1)]

/-! ### base64 (from `lib/encoders.js` `btoa` and `lib/decoders.js` `atob`)

`Buffer.from(buf).toString('base64')` and
`Buffer.from(str, 'base64').toString('binary')`.  Strings are embedded as
lists of their character codes (base64 text is ASCII, and a latin1-decoded
binary string has exactly the payload bytes as its character codes). -/

/-- Character code of the base64 digit for a sextet. -/
def b64code (n : Nat) : Nat :=
  if n < 26 then 65 + n
  else if n < 52 then 97 + (n - 26)
  else if n < 62 then 48 + (n - 52)
  else if n = 62 then 43
  else 47

/-- Sextet value of a base64 digit's character code. -/
def b64dec (c : Nat) : Nat :=
  if 65 ≤ c ∧ c ≤ 90 then c - 65
  else if 97 ≤ c ∧ c ≤ 122 then 26 + (c - 97)
  else if 48 ≤ c ∧ c ≤ 57 then 52 + (c - 48)
  else if c = 43 then 62
  else 63

/-- base64 encoding of a byte list, as the character codes of the encoded
text (`=` is code 61). -/
def b64encodeCodes : List Nat → List Nat
  | [] => []
  | [a] => [b64code (a / 4), b64code (a % 4 * 16), 61, 61]
  | [a, b] => [b64code (a / 4), b64code (a % 4 * 16 + b / 16), b64code (b % 16 * 4), 61]
  | a :: b :: c :: rest =>
    b64code (a / 4) :: b64code (a % 4 * 16 + b / 16)
      :: b64code (b % 16 * 4 + c / 64) :: b64code (c % 64)
      :: b64encodeCodes rest

/-- base64 decoding back to the byte list. -/
def b64decodeCodes : List Nat → List Nat
  | d₁ :: d₂ :: d₃ :: d₄ :: rest =>
    if d₃ = 61 then [b64dec d₁ * 4 + b64dec d₂ / 16]
    else if d₄ = 61 then
      [b64dec d₁ * 4 + b64dec d₂ / 16, b64dec d₂ % 16 * 16 + b64dec d₃ / 4]
    else
      (b64dec d₁ * 4 + b64dec d₂ / 16)
        :: (b64dec d₂ % 16 * 16 + b64dec d₃ / 4)
        :: (b64dec d₃ % 4 * 64 + b64dec d₄)
        :: b64decodeCodes rest
  | _ => []

/-! ## Concrete scenarios used by individual claims -/

/-- Connection-level defaults as established by `connect()`:
`DEFAULT_OPTS = {decoder: decoders.text, encoder: encoders.text}` merged
into the connection options. -/
def dfltBase : Opts :=
  { decoder := some (.fnVal (.builtin .bText))
    encoder := some (.fnVal (.builtin .bText)) }

/-- An empty options object (`opts = {}`). -/
def emptyOpts : Opts := {}

/-- A fresh patched client. -/
def st0 : ClientState := {}

/-- Scenario for the specificity-ordering claim: listeners 10, 11, 12
subscribed on `foo/quux/bar`, `foo/+/bar`, `foo/#`, in that order, each
subscribe acknowledged by the broker. -/
def c2State : ClientState :=
  (toadSubscribe dfltBase
    (toadSubscribe dfltBase
      (toadSubscribe dfltBase st0 (.str "foo/quux/bar") (.fn 10) emptyOpts
        (.ok ⟨"foo/quux/bar", 0⟩)).2.1
      (.str "foo/+/bar") (.fn 11) emptyOpts (.ok ⟨"foo/+/bar", 0⟩)).2.1
    (.str "foo/#") (.fn 12) emptyOpts (.ok ⟨"foo/#", 0⟩)).2.1

/-- Scenario for the unsubscribe reference-counting claim: listeners 1 and 2
subscribed on `foo/bar`. -/
def c3State : ClientState :=
  (toadSubscribe dfltBase
    (toadSubscribe dfltBase st0 (.str "foo/bar") (.fn 1) emptyOpts
      (.ok ⟨"foo/bar", 0⟩)).2.1
    (.str "foo/bar") (.fn 2) emptyOpts (.ok ⟨"foo/bar", 0⟩)).2.1

/-- First unsubscribe of the reference-counting scenario. -/
def c3Unsub₁ : Bool × ClientState × List Frame :=
  toadUnsubscribe c3State "foo/bar" (some 1)

/-- Second unsubscribe of the reference-counting scenario. -/
def c3Unsub₂ : Bool × ClientState × List Frame :=
  toadUnsubscribe c3Unsub₁.2.1 "foo/bar" (some 2)

/-- Scenario for the subscribe-rollback claim: a subscribe whose broker-level
step is rejected. -/
def c4Result : Except JSErr Grant × ClientState × List Frame :=
  toadSubscribe dfltBase st0 (.str "foo/bar") (.fn 7) emptyOpts (.error ())

/-- Counterexample input for the parameter-validation claim: an empty-string
topic with a valid listener. -/
def c5Result : Except JSErr Grant × ClientState × List Frame :=
  toadSubscribe dfltBase st0 (.str "") (.fn 0) emptyOpts (.ok ⟨"", 0⟩)

/-- Counterexample options for the codec-resolution claim: an unknown decoder
name together with a non-string, non-function encoder. -/
def c6Opts : Opts := { decoder := some (.str "bogus"), encoder := some .otherVal }

/-- A store whose every reference holds an options object with a string
decoder name, a custom encoder function, and no `qos` key. -/
def c10Store : OptStore := fun _ =>
  { decoder := some (.str "json"), encoder := some (.fnVal (.custom 5)),
    qos := none, extra := some 9 }

/-! ## Matching lemmas -/

/-- On a filter without `#`, the matching walk succeeds exactly when the
filter segments pair up one-to-one with the topic segments. -/
theorem mqttMatch_forall₂ (fs : List String) :
    "#" ∉ fs → ∀ ts, (mqttMatch fs ts = true ↔ List.Forall₂ segMatch fs ts) := by
  induction fs with
  | nil =>
    intro _ ts
    simp [mqttMatch, List.isEmpty_iff, List.forall₂_nil_left_iff]
  | cons f fs ih =>
    intro h ts
    have hf : f ≠ "#" := fun hh => h (List.mem_cons.2 (Or.inl hh.symm))
    have hfs : "#" ∉ fs := fun hh => h (List.mem_cons.2 (Or.inr hh))
    cases ts with
    | nil => simp [mqttMatch, hf, List.forall₂_nil_right_iff]
    | cons t ts₂ => simp [mqttMatch, hf, List.forall₂_cons, segMatch, ih hfs ts₂]

/-- On a filter of the form `gs ++ ["#"]` with `gs` free of `#`, the matching
walk succeeds exactly when `gs` pairs up with a prefix of the topic
segments. -/
theorem mqttMatch_hash (gs : List String) :
    "#" ∉ gs → ∀ ts, (mqttMatch (gs ++ ["#"]) ts = true ↔
      ∃ ts₁ ts₂, ts = ts₁ ++ ts₂ ∧ List.Forall₂ segMatch gs ts₁) := by
  induction gs with
  | nil =>
    intro _ ts
    constructor
    · intro _
      exact ⟨[], ts, rfl, List.Forall₂.nil⟩
    · intro _
      simp [mqttMatch]
  | cons g gs ih =>
    intro h ts
    have hg : g ≠ "#" := fun hh => h (List.mem_cons.2 (Or.inl hh.symm))
    have hgs : "#" ∉ gs := fun hh => h (List.mem_cons.2 (Or.inr hh))
    cases ts with
    | nil =>
      constructor
      · intro hm
        rw [List.cons_append] at hm
        simp [mqttMatch, hg] at hm
      · rintro ⟨ts₁, ts₂, hts, hf⟩
        cases ts₁ with
        | nil => cases hf
        | cons a ts₁ => simp at hts
    | cons t ts₂ =>
      constructor
      · intro hm
        rw [List.cons_append] at hm
        simp only [mqttMatch, hg, false_and, if_false, Bool.and_eq_true,
          Bool.or_eq_true, beq_iff_eq] at hm
        obtain ⟨hseg, hrest⟩ := hm
        obtain ⟨u₁, u₂, hu, huf⟩ := (ih hgs ts₂).1 hrest
        exact ⟨t :: u₁, u₂, by rw [hu, List.cons_append], List.Forall₂.cons hseg huf⟩
      · rintro ⟨ts₁, ts₂', hts, hf⟩
        cases ts₁ with
        | nil => cases hf
        | cons u u₁ =>
          rw [List.cons_append] at hts
          injection hts with h1 h2
          cases hf with
          | cons hseg hf₂ =>
            rw [List.cons_append]
            simp only [mqttMatch, hg, false_and, if_false, Bool.and_eq_true,
              Bool.or_eq_true, beq_iff_eq]
            constructor
            · rcases hseg with hh | hh
              · exact Or.inl hh
              · exact Or.inr (by rw [h1, hh])
            · exact (ih hgs ts₂).2 ⟨u₁, ts₂', h2, hf₂⟩

/-! ## Claims -/

/-- C1: `matches(f, t)` holds iff every literal segment of `f` equals the
corresponding segment of `t`, every `+` segment consumes exactly one topic
segment, and a trailing `#` consumes all remaining segments including zero
of them; in particular `matches("foo/+/baz","foo/bar/baz")`,
`matches("foo/#","foo/bar/baz")` are true and
`matches("foo/+","foo/bar/baz")` is false.  (Quantified over well-formed
filters: `#` occurs at most as the final segment.) -/
theorem c1_matcher_spec :
    (∀ f t : String, "#" ∉ (splitSegs f).dropLast →
        (mqttMatches f t = true ↔ SpecMatch (splitSegs f) (splitSegs t)))
    ∧ mqttMatches "foo/+/baz" "foo/bar/baz" = true
    ∧ mqttMatches "foo/#" "foo/bar/baz" = true
    ∧ mqttMatches "foo/+" "foo/bar/baz" = false := by
  refine ⟨?_, by decide, by decide, by decide⟩
  intro f t h
  unfold mqttMatches SpecMatch
  by_cases hend : (splitSegs f).getLast? = some "#"
  case pos =>
    have hne : splitSegs f ≠ [] := by
      intro hh
      rw [hh] at hend
      simp at hend
    have hlast : (splitSegs f).getLast hne = "#" := by
      have hq := List.getLast?_eq_getLast (splitSegs f) hne
      rw [hq] at hend
      exact Option.some.inj hend
    have hdecomp : (splitSegs f).dropLast ++ ["#"] = splitSegs f := by
      rw [← hlast]
      exact List.dropLast_append_getLast hne
    rw [← hdecomp, mqttMatch_hash _ h (splitSegs t)]
    constructor
    · rintro ⟨ts₁, ts₂, h1, h2⟩
      exact Or.inr ⟨(splitSegs f).dropLast, ts₁, ts₂, rfl, h1, h2⟩
    · rintro (⟨hn, _⟩ | ⟨gs, ts₁, ts₂, hg, h1, h2⟩)
      · exact absurd (List.getLast?_concat _) hn
      · have hgs : gs = (splitSegs f).dropLast := by
          have h3 := congrArg List.dropLast hg
          simpa [List.dropLast_concat] using h3.symm
        subst hgs
        exact ⟨ts₁, ts₂, h1, h2⟩
  case neg =>
    have hnot : "#" ∉ splitSegs f := by
      intro hmem
      by_cases hne : splitSegs f = []
      · rw [hne] at hmem
        simp at hmem
      · have hdl := List.dropLast_append_getLast hne
        rw [← hdl] at hmem
        rcases List.mem_append.1 hmem with h1 | h2
        · exact h h1
        · apply hend
          rw [List.getLast?_eq_getLast (splitSegs f) hne]
          simp at h2
          rw [h2]
    rw [mqttMatch_forall₂ _ hnot (splitSegs t)]
    constructor
    · intro hf2
      exact Or.inl ⟨hend, hf2⟩
    · rintro (⟨_, hf2⟩ | ⟨gs, ts₁, ts₂, hg, h1, h2⟩)
      · exact hf2
      · exfalso
        apply hend
        rw [hg]
        exact List.getLast?_concat _

/-- C1 witness: the equivalence applied to the concrete filter `foo/#` and
topic `foo/bar`. -/
theorem c1_matcher_spec_witness :
    mqttMatches "foo/#" "foo/bar" = true ↔
      SpecMatch (splitSegs "foo/#") (splitSegs "foo/bar") :=
  c1_matcher_spec.1 "foo/#" "foo/bar" (by decide)

/-- C2: when several registered filters match an inbound topic, listeners are
invoked in descending specificity order (exact filters first, then filters
containing `+`, then filters ending in `#`), ties within a class in
registration order (strictly increasing registration tokens); and in the
concrete scenario of listeners 10, 11, 12 registered on `foo/quux/bar`,
`foo/+/bar`, `foo/#` in that order, a message on `foo/quux/bar` invokes
`[10, 11, 12]`. -/
theorem c2_dispatch_order :
    (∀ (st : ClientState) (topic : String),
        st.toad.Pairwise (fun a b => fnTok a.2 < fnTok b.2) →
        (dispatchEntries st topic).Pairwise (fun a b =>
          classOfEvent a.1 < classOfEvent b.1
          ∨ (classOfEvent a.1 = classOfEvent b.1 ∧ fnTok a.2 < fnTok b.2)))
    ∧ dispatchMessage c2State "foo/quux/bar" = [10, 11, 12] := by
  constructor
  · intro st topic hp
    unfold dispatchEntries
    have hpm : (st.toad.filter (fun x => eventMatchesTopic x.1 topic)).Pairwise
        (fun a b => fnTok a.2 < fnTok b.2) :=
      hp.sublist (List.filter_sublist _)
    have hclass : ∀ i : Nat,
        ∀ x ∈ (st.toad.filter (fun x => eventMatchesTopic x.1 topic)).filter
          (fun x => classOfEvent x.1 == i), classOfEvent x.1 = i := by
      intro i x hx
      have hx2 := (List.mem_filter.1 hx).2
      simpa using hx2
    have hsub : ∀ i : Nat,
        ((st.toad.filter (fun x => eventMatchesTopic x.1 topic)).filter
          (fun x => classOfEvent x.1 == i)).Pairwise
          (fun a b => fnTok a.2 < fnTok b.2) :=
      fun _ => hpm.sublist (List.filter_sublist _)
    have hlift : ∀ i : Nat,
        ((st.toad.filter (fun x => eventMatchesTopic x.1 topic)).filter
          (fun x => classOfEvent x.1 == i)).Pairwise
          (fun a b => classOfEvent a.1 < classOfEvent b.1
            ∨ (classOfEvent a.1 = classOfEvent b.1 ∧ fnTok a.2 < fnTok b.2)) := by
      intro i
      refine (hsub i).imp_of_mem ?_
      intro a b ha hb hab
      exact Or.inr ⟨(hclass i a ha).trans (hclass i b hb).symm, hab⟩
    rw [List.pairwise_append, List.pairwise_append]
    refine ⟨⟨hlift 0, hlift 1, ?_⟩, hlift 2, ?_⟩
    · intro a ha b hb
      exact Or.inl (by rw [hclass 0 a ha, hclass 1 b hb]; exact Nat.zero_lt_one)
    · intro a ha b hb
      rcases List.mem_append.1 ha with h0 | h1
      · exact Or.inl (by rw [hclass 0 a h0, hclass 2 b hb]; exact Nat.zero_lt_two)
      · exact Or.inl (by rw [hclass 1 a h1, hclass 2 b hb]; exact Nat.one_lt_two)
  · rfl

/-- C2 witness: the ordering statement applied to the concrete scenario
state (whose registration tokens are strictly increasing). -/
theorem c2_dispatch_order_witness :
    (dispatchEntries c2State "foo/quux/bar").Pairwise (fun a b =>
      classOfEvent a.1 < classOfEvent b.1
      ∨ (classOfEvent a.1 = classOfEvent b.1 ∧ fnTok a.2 < fnTok b.2)) :=
  c2_dispatch_order.1 c2State "foo/quux/bar" (by decide)

/-- C3: the claim expects reference-counted unsubscribe, but the code removes
`listener` itself from the internal emitter while the registered handler is
the decoder wrapper (a different function object), so with two listeners on
`foo/bar` both `unsubscribe('foo/bar', f1)` and the subsequent
`unsubscribe('foo/bar', f2)` resolve `false`, send no broker unsubscribe,
and both listeners keep receiving messages. -/
theorem c3_unsubscribe_wrapper_bug :
    c3Unsub₁.1 = false ∧ c3Unsub₁.2.2 = []
    ∧ c3Unsub₂.1 = false ∧ c3Unsub₂.2.2 = []
    ∧ dispatchMessage c3Unsub₂.2.1 "foo/bar" = [1, 2] := by
  refine ⟨rfl, rfl, rfl, rfl, rfl⟩

/-- C4: the claim expects a failed subscribe to roll back the registration,
but the rollback `toad.removeListener(event, listener)` is passed the raw
listener while the registered handler is the decoder wrapper, so after a
broker-rejected subscribe the entry is still registered (count 1, and the
listener still receives messages) although the error propagates. -/
theorem c4_subscribe_rollback_bug :
    c4Result.1 = .error .brokerErr
    ∧ listenerCountL c4Result.2.1.toad (eventify "foo/bar") = 1
    ∧ dispatchMessage c4Result.2.1 "foo/bar" = [7] := by
  refine ⟨rfl, rfl, rfl⟩

/-- C5 counterexample: a subscribe with the empty-string topic (not a
non-empty string) and a valid listener does not fail with a type error — it
registers the listener and sends the broker subscribe frame. -/
theorem c5_validation_counterexample :
    c5Result.1 = .ok ⟨"", 0⟩
    ∧ c5Result.2.2.length = 1
    ∧ listenerCountL c5Result.2.1.toad (eventify "") = 1 := by
  refine ⟨rfl, rfl, rfl⟩

/-- C5 (amended): whenever the topic is not a string or the listener is not
a function, subscribe fails with `TypeError('Invalid parameters')` before
any registry mutation and before any network operation. -/
theorem c5_validation_amended :
    ∀ (base : Opts) (st : ClientState) (topic listener : JSVal) (opts : Opts)
      (broker : Except Unit Grant),
      topic.isStr = false ∨ listener.isFn = false →
      toadSubscribe base st topic listener opts broker
        = (.error (.typeErr "Invalid parameters"), st, []) := by
  intro base st topic listener opts broker h
  cases topic <;> cases listener <;>
    simp [toadSubscribe, JSVal.isStr, JSVal.isFn] at h ⊢

/-- C5 witness: the amended statement applied to undefined arguments. -/
theorem c5_validation_amended_witness :
    toadSubscribe dfltBase st0 .undef .undef emptyOpts (.error ())
      = (.error (.typeErr "Invalid parameters"), st0, []) :=
  c5_validation_amended dfltBase st0 .undef .undef emptyOpts (.error ())
    (Or.inl rfl)

/-- C6 counterexample, two independent failures of the claim's "exactly
when" conditions: (1) with `{decoder: "bogus", encoder: new Date()}` the
encoder option is neither a string nor a function, yet resolution fails
with the decoder's `ReferenceError`, not a type-style error; (2) the string
`"toString"` names no built-in codec, yet resolution succeeds with no
reference-style error, because the bracket lookup finds the inherited
`Object.prototype.toString` (a truthy value) through the prototype chain. -/
theorem c6_resolution_counterexample :
    (badTypeOpt c6Opts.encoder
      ∧ normalizeOptions c6Opts dfltBase
          = .error (.refErr "unknown decoder \"bogus\""))
    ∧ normalizeOptions { decoder := some (.str "toString") } dfltBase
        = .ok { decoder := some (.fnVal (.builtin .bText)),
                encoder := some (.fnVal (.builtin .bText)) } :=
  ⟨⟨rfl, rfl⟩, rfl⟩

/-- C8: `end(force)` on a client that is not connected issues no transport
disconnect and leaves the state unchanged, and ending twice is the same as
ending once (the second call is a no-op). -/
theorem c8_end_idempotent :
    ∀ (st : ClientState) (force : Bool),
      (st.connected = false → toadEnd st force = (st, []))
      ∧ toadEnd (toadEnd st force).1 force = ((toadEnd st force).1, []) := by
  intro st force
  constructor
  · intro h
    simp [toadEnd, h]
  · by_cases h : st.connected
    · simp [toadEnd, h]
    · simp [toadEnd, h]

/-- C8 witness: ending an already-disconnected client changes nothing. -/
theorem c8_end_idempotent_witness :
    toadEnd { st0 with connected := false } false
      = ({ st0 with connected := false }, []) :=
  (c8_end_idempotent { st0 with connected := false } false).1 rfl

/-- Trichotomy of one `normalizeOptions` property resolution step: it
succeeds exactly on valid options, fails with a `ReferenceError` exactly on
unknown string names, and fails with a `TypeError` exactly on non-string,
non-function values. -/
theorem resolveProp_cases (prop : String) (v : Option OptVal) :
    (∃ w, resolveProp prop v = .ok w ∧ okOptVal v ∧ ¬ badNameOpt v ∧ ¬ badTypeOpt v)
    ∨ (∃ s, resolveProp prop v = .error (.refErr s)
        ∧ badNameOpt v ∧ ¬ okOptVal v ∧ ¬ badTypeOpt v)
    ∨ (∃ s, resolveProp prop v = .error (.typeErr s)
        ∧ badTypeOpt v ∧ ¬ okOptVal v ∧ ¬ badNameOpt v) := by
  rcases v with _ | v
  · exact Or.inl ⟨none, rfl, trivial, by simp [badNameOpt], by simp [badTypeOpt]⟩
  · rcases v with s | f | _
    · rcases hb : lookupBuiltin s with _ | b
      · refine Or.inr (Or.inl ⟨"unknown " ++ prop ++ " \"" ++ s ++ "\"",
          ?_, ⟨s, rfl, hb⟩, ?_, ?_⟩)
        · simp [resolveProp, hb]
        · simp [okOptVal, hb]
        · simp [badTypeOpt]
      · refine Or.inl ⟨some b, ?_, ⟨b, hb⟩, ?_, ?_⟩
        · simp [resolveProp, hb]
        · simp [badNameOpt, hb]
        · simp [badTypeOpt]
    · exact Or.inl ⟨some (.fnVal f), rfl, trivial,
        by simp [badNameOpt], by simp [badTypeOpt]⟩
    · refine Or.inr (Or.inr ⟨prop ++ " must be string or function", rfl, rfl, ?_, ?_⟩)
      · simp [okOptVal]
      · simp [badNameOpt]

/-- C6 (amended): option resolution is a pure function running before any
network frame is produced; it succeeds iff each present codec option is a
function or a string the bracket lookup finds (an own built-in name, or an
inherited `Object.prototype` property such as `"toString"`, accepted with
no error), and when it fails the error of the first faulty option wins (the
`decoder` option is checked before the `encoder` option): a reference-style
error iff that first faulty option is a string matching no own or inherited
property of the codec table, a type-style error iff it is neither a string
nor a function. -/
theorem c6_resolution_amended (o d : Opts) :
    ((∃ o₂, normalizeOptions o d = .ok o₂) ↔ okOptVal o.decoder ∧ okOptVal o.encoder)
    ∧ ((∃ s, normalizeOptions o d = .error (.refErr s)) ↔
        badNameOpt o.decoder ∨ (okOptVal o.decoder ∧ badNameOpt o.encoder))
    ∧ ((∃ s, normalizeOptions o d = .error (.typeErr s)) ↔
        badTypeOpt o.decoder ∨ (okOptVal o.decoder ∧ badTypeOpt o.encoder))
    ∧ (∀ e topic msg, normalizeOptions o d = .error e →
        publishModel d topic msg o = (.error e, []))
    ∧ (∀ e st t l broker, normalizeOptions o d = .error e →
        toadSubscribe d st (.str t) (.fn l) o broker = (.error e, st, [])) := by
  have hpub : ∀ e : JSErr, normalizeOptions o d = .error e →
      (∀ topic msg, publishModel d topic msg o = (.error e, []))
      ∧ (∀ st t l broker, toadSubscribe d st (.str t) (.fn l) o broker
          = (.error e, st, [])) := by
    intro e he
    constructor
    · intro topic msg
      simp [publishModel, he]
    · intro st t l broker
      simp [toadSubscribe, he]
  rcases resolveProp_cases "decoder" o.decoder with
    ⟨wd, hwd, hokd, hnbnd, hnbtd⟩ | ⟨sd, hwd, hbnd, hnokd, hnbtd⟩ |
    ⟨sd, hwd, hbtd, hnokd, hnbnd⟩
  · rcases resolveProp_cases "encoder" o.encoder with
      ⟨we, hwe, hoke, hnbne, hnbte⟩ | ⟨se, hwe, hbne, hnoke, hnbte⟩ |
      ⟨se, hwe, hbte, hnoke, hnbne⟩
    · have hn : normalizeOptions o d
          = .ok (mergeOpts { o with decoder := wd, encoder := we } d) := by
        simp [normalizeOptions, hwd, hwe]
      refine ⟨?_, ?_, ?_, ?_, ?_⟩
      · simp [hn, hokd, hoke]
      · simp [hn, hnbnd, hnbne]
      · simp [hn, hnbtd, hnbte]
      · intro e topic msg he
        rw [hn] at he
        exact absurd he (by simp)
      · intro e st t l broker he
        rw [hn] at he
        exact absurd he (by simp)
    · have hn : normalizeOptions o d = .error (.refErr se) := by
        simp [normalizeOptions, hwd, hwe]
      refine ⟨?_, ?_, ?_, fun e topic msg he => (hpub e he).1 topic msg,
        fun e st t l broker he => (hpub e he).2 st t l broker⟩
      · simp [hn, hnoke]
      · simp [hn, hokd, hbne]
      · simp [hn, hnbtd, hnbte]
    · have hn : normalizeOptions o d = .error (.typeErr se) := by
        simp [normalizeOptions, hwd, hwe]
      refine ⟨?_, ?_, ?_, fun e topic msg he => (hpub e he).1 topic msg,
        fun e st t l broker he => (hpub e he).2 st t l broker⟩
      · simp [hn, hnoke]
      · simp [hn, hnbnd, hnbne]
      · simp [hn, hokd, hbte]
  · have hn : normalizeOptions o d = .error (.refErr sd) := by
      simp [normalizeOptions, hwd]
    refine ⟨?_, ?_, ?_, fun e topic msg he => (hpub e he).1 topic msg,
      fun e st t l broker he => (hpub e he).2 st t l broker⟩
    · simp [hn, hnokd]
    · simp [hn, hbnd]
    · simp [hn, hnbtd, hnokd]
  · have hn : normalizeOptions o d = .error (.typeErr sd) := by
      simp [normalizeOptions, hwd]
    refine ⟨?_, ?_, ?_, fun e topic msg he => (hpub e he).1 topic msg,
      fun e st t l broker he => (hpub e he).2 st t l broker⟩
    · simp [hn, hnokd]
    · simp [hn, hnbnd, hnokd]
    · simp [hn, hbtd]

/-- C6 witness: the amended classification applied to the counterexample
options (a reference-style failure). -/
theorem c6_resolution_amended_witness :
    ∃ s, normalizeOptions c6Opts dfltBase = .error (.refErr s) :=
  (c6_resolution_amended c6Opts dfltBase).2.1.mpr (Or.inl ⟨"bogus", rfl, rfl⟩)

/-- Decoding the base64 digit of any sextet recovers the sextet. -/
theorem b64dec_b64code : ∀ n, n < 64 → b64dec (b64code n) = n := by decide

/-- No base64 digit is the padding character (code 61). -/
theorem b64code_ne_pad (n : Nat) : b64code n ≠ 61 := by
  unfold b64code
  split_ifs <;> omega

/-- base64 round trip, by induction on three-byte chunks. -/
theorem b64_roundtrip_len : ∀ (n : Nat) (l : List Nat), l.length ≤ n →
    (∀ b ∈ l, b < 256) → b64decodeCodes (b64encodeCodes l) = l := by
  intro n
  induction n with
  | zero =>
    intro l hl _
    have hnil : l = [] := List.length_eq_zero.1 (Nat.le_zero.1 hl)
    subst hnil
    rfl
  | succ n ih =>
    intro l hl hb
    rcases l with _ | ⟨a, l₂⟩
    · rfl
    rcases l₂ with _ | ⟨b, l₃⟩
    · have ha : a < 256 := hb a (by simp)
      show b64decodeCodes [b64code (a / 4), b64code (a % 4 * 16), 61, 61] = [a]
      simp only [b64decodeCodes, if_pos]
      rw [b64dec_b64code (a / 4) (by omega), b64dec_b64code (a % 4 * 16) (by omega)]
      have h1 : a / 4 * 4 + a % 4 * 16 / 16 = a := by omega
      rw [h1]
    rcases l₃ with _ | ⟨c, rest⟩
    · have ha : a < 256 := hb a (by simp)
      have hbb : b < 256 := hb b (by simp)
      show b64decodeCodes [b64code (a / 4), b64code (a % 4 * 16 + b / 16),
        b64code (b % 16 * 4), 61] = [a, b]
      simp only [b64decodeCodes]
      rw [if_neg (b64code_ne_pad _), if_pos trivial]
      rw [b64dec_b64code (a / 4) (by omega),
        b64dec_b64code (a % 4 * 16 + b / 16) (by omega),
        b64dec_b64code (b % 16 * 4) (by omega)]
      have h1 : a / 4 * 4 + (a % 4 * 16 + b / 16) / 16 = a := by omega
      have h2 : (a % 4 * 16 + b / 16) % 16 * 16 + b % 16 * 4 / 4 = b := by omega
      rw [h1, h2]
    · have ha : a < 256 := hb a (by simp)
      have hbb : b < 256 := hb b (by simp)
      have hc : c < 256 := hb c (by simp)
      have hrest : ∀ x ∈ rest, x < 256 := fun x hx => hb x (by simp [hx])
      have hlen : rest.length ≤ n := by
        simp [List.length_cons] at hl
        omega
      show b64decodeCodes (b64code (a / 4) :: b64code (a % 4 * 16 + b / 16)
        :: b64code (b % 16 * 4 + c / 64) :: b64code (c % 64)
        :: b64encodeCodes rest) = a :: b :: c :: rest
      simp only [b64decodeCodes]
      rw [if_neg (b64code_ne_pad _), if_neg (b64code_ne_pad _)]
      rw [b64dec_b64code (a / 4) (by omega),
        b64dec_b64code (a % 4 * 16 + b / 16) (by omega),
        b64dec_b64code (b % 16 * 4 + c / 64) (by omega),
        b64dec_b64code (c % 64) (by omega)]
      have h1 : a / 4 * 4 + (a % 4 * 16 + b / 16) / 16 = a := by omega
      have h2 : (a % 4 * 16 + b / 16) % 16 * 16 + (b % 16 * 4 + c / 64) / 4 = b := by omega
      have h3 : (b % 16 * 4 + c / 64) % 4 * 64 + c % 64 = c := by omega
      rw [h1, h2, h3, ih rest hlen hrest]

/-- C7: decode-after-encode round trips for the four built-in codec pairs:
the JSON pair on the representative structured value `{"a":1}` (through the
UTF-8 wire encoding), the text pair on `"hello"`, the binary pair on every
byte sequence, and the base64 pair on every byte sequence. -/
theorem c7_codec_roundtrip :
    jsonParse (utf8Decode (utf8Encode (jsonStringify jsonRep))) = some jsonRep
    ∧ utf8Decode (utf8Encode (textEncode "hello")) = "hello"
    ∧ (∀ l : List Nat, binaryDecode (binaryEncode l) = l)
    ∧ (∀ l : List Nat, (∀ b ∈ l, b < 256) →
        b64decodeCodes (b64encodeCodes l) = l) :=
  ⟨rfl, rfl, fun _ => rfl,
    fun l h => b64_roundtrip_len l.length l le_rfl h⟩

/-- C7 witness: the base64 round trip evaluated on a concrete byte
sequence. -/
theorem c7_codec_roundtrip_witness :
    b64decodeCodes (b64encodeCodes [77, 0, 255]) = [77, 0, 255] :=
  c7_codec_roundtrip.2.2.2 [77, 0, 255] (by decide)

/-- A valid codec option resolves successfully, and a string option resolves
to the value the bracket lookup finds for it. -/
theorem resolveProp_ok_image (prop : String) (v : Option OptVal) (h : okOptVal v) :
    ∃ w, resolveProp prop v = .ok w
      ∧ (∀ s u, v = some (.str s) → lookupBuiltin s = some u → w = some u) := by
  rcases v with _ | (s | f | _)
  · refine ⟨none, rfl, ?_⟩
    intro s u hs _
    cases hs
  · obtain ⟨u, hu⟩ := h
    refine ⟨some u, by simp [resolveProp, hu], ?_⟩
    intro s₂ u₂ hs hu₂
    have hss : s = s₂ := by simpa using hs
    subst hss
    rw [hu] at hu₂
    injection hu₂ with huu
    rw [huu]
  · refine ⟨some (.fnVal f), rfl, ?_⟩
    intro s u hs _
    exact absurd hs (by simp)
  · cases h

/-- C10 counterexample: an options object carrying `{decoder: "json"}` is
normalized against the connection defaults; the string name is first
replaced by the resolved `json` transform, but `Object.assign(opts,
defaults, opts)` then copies the connection-level `text` default over it
(the trailing self-copy being a no-op), so after the call the caller's
object holds the default `text` transform, not the resolved `json` one. -/
theorem c10_opts_counterexample :
    (normalizeRef c10Store 0 dfltBase).1 = none
    ∧ ((normalizeRef c10Store 0 dfltBase).2 0).decoder
        = some (.fnVal (.builtin .bText))
    ∧ ((normalizeRef c10Store 0 dfltBase).2 0).decoder
        ≠ some (.fnVal (.builtin .bJson)) := by
  refine ⟨rfl, rfl, by decide⟩

/-- C10 (amended): option normalization mutates the caller's options object
in place — only the object at the caller's reference `r` is updated (no
private copy, no other object touched) and the frames are built from that
same object — but the final `Object.assign(opts, defaults, opts)` copies
the connection-level defaults over the object (the trailing self-copy is a
no-op): on every key the defaults carry, the default's value wins, so a
resolved codec name survives at the caller's reference only when the
defaults lack that key; keys absent from the defaults keep the caller's
value. -/
theorem c10_opts_in_place :
    ∀ (σ : OptStore) (r : Nat) (base : Opts) (topic : String) (msg : Nat),
      okOptVal (σ r).decoder → okOptVal (σ r).encoder →
      (normalizeRef σ r base).1 = none
      ∧ publishRef σ r base topic msg
          = (.ok (), (normalizeRef σ r base).2,
             [Frame.pub topic msg ((normalizeRef σ r base).2 r)])
      ∧ (∀ x, x ≠ r → (normalizeRef σ r base).2 x = σ x)
      ∧ (∀ dv, base.decoder = some dv →
          ((normalizeRef σ r base).2 r).decoder = some dv)
      ∧ (base.decoder = none → ∀ s v, (σ r).decoder = some (.str s) →
          lookupBuiltin s = some v →
          ((normalizeRef σ r base).2 r).decoder = some v)
      ∧ (∀ ev, base.encoder = some ev →
          ((normalizeRef σ r base).2 r).encoder = some ev)
      ∧ (base.encoder = none → ∀ s v, (σ r).encoder = some (.str s) →
          lookupBuiltin s = some v →
          ((normalizeRef σ r base).2 r).encoder = some v)
      ∧ ((normalizeRef σ r base).2 r).qos = (base.qos <|> (σ r).qos)
      ∧ ((normalizeRef σ r base).2 r).extra = (base.extra <|> (σ r).extra)
      ∧ (∀ (st : ClientState) (t : String) (l : Nat) (g : Grant),
          (subscribeRef base st σ r (.str t) (.fn l) (.ok g)).1 = .ok g
          ∧ (subscribeRef base st σ r (.str t) (.fn l) (.ok g)).2.1
              = (normalizeRef σ r base).2) := by
  intro σ r base topic msg hd he
  obtain ⟨wd, hwd, hwdim⟩ := resolveProp_ok_image "decoder" (σ r).decoder hd
  obtain ⟨we, hwe, hweim⟩ := resolveProp_ok_image "encoder" (σ r).encoder he
  refine ⟨?_, ?_, ?_, ?_, ?_, ?_, ?_, ?_, ?_, ?_⟩
  · simp [normalizeRef, setRef, hwd, hwe]
  · simp [publishRef, normalizeRef, setRef, hwd, hwe]
  · intro x hx
    simp [normalizeRef, hwd, hwe, setRef, hx]
  · intro dv hb
    simp [normalizeRef, hwd, hwe, setRef, mergeOpts, hb]
  · intro hb s v hs hv
    have himg := hwdim s v hs hv
    subst himg
    simp [normalizeRef, hwd, hwe, setRef, mergeOpts, hb]
  · intro ev hb
    simp [normalizeRef, hwd, hwe, setRef, mergeOpts, hb]
  · intro hb s v hs hv
    have himg := hweim s v hs hv
    subst himg
    simp [normalizeRef, hwd, hwe, setRef, mergeOpts, hb]
  · simp [normalizeRef, hwd, hwe, setRef, mergeOpts]
  · simp [normalizeRef, hwd, hwe, setRef, mergeOpts]
  · intro st t l g
    constructor
    · simp [subscribeRef, normalizeRef, setRef, hwd, hwe]
    · simp [subscribeRef, normalizeRef, setRef, hwd, hwe]

/-- C10 witness: on a concrete store, normalization succeeds, the
connection-level `text` decoder default overwrites the caller's resolved
`json` name, and the caller's `extra` key (absent from the defaults)
survives at the caller's reference. -/
theorem c10_opts_in_place_witness :
    (normalizeRef c10Store 0 dfltBase).1 = none
    ∧ ((normalizeRef c10Store 0 dfltBase).2 0).decoder
        = some (.fnVal (.builtin .bText))
    ∧ ((normalizeRef c10Store 0 dfltBase).2 0).extra = some 9 := by
  obtain ⟨h1, _, _, h4, _, _, _, _, hx, _⟩ :=
    c10_opts_in_place c10Store 0 dfltBase "t" 3
      ⟨.fnVal (.builtin .bJson), rfl⟩ trivial
  exact ⟨h1, h4 (.fnVal (.builtin .bText)) rfl, hx.trans rfl⟩

end Mqttletoad
